import Mathlib

/-!
Shallow embedding of `src/debugging/coreclr/CommandLineDotNetClient.ts`
(class `CommandLineDotNetClient`).

The TypeScript class is an orchestration layer: it builds command strings,
shells out through an injected `ProcessProvider`, reads and deletes files
through an injected `FileSystemProvider`, queries the host OS through an
injected `OSProvider`, and prompts the user through `ext.ui`.  All of those
collaborators are external to the file under verification, so they are
modelled as an environment `Env` of oracle functions.  The mutable state the
class itself owns — the static idempotency cache `_KnownConfiguredProjects`,
the static flag `_CertificateTrustedOrSkipped`, and the file system that its
own calls mutate — is threaded explicitly through a `World` record, together
with a trace of the external calls performed (process executions, file-system
operations, user-interaction prompts), so that claims about "no external
call happens" become statements about the trace.

Asynchronous `await`s are sequential in the source (no parallelism), so the
embedding is plain sequential state passing; a thrown JavaScript exception is
an `Except.error` value that each function either propagates or handles
exactly where the source has `try`/`catch`.
-/

/-- A JavaScript exception value as this code observes it.  External process
failures are classified by the source via `parseError(err).errorType`
(a string holding the exit code); `fromExec` carries that classification and
a message.  `semverInvalidVersion` models the `TypeError` that the external
`semver` library throws when `semver.gte` is applied to an invalid (for
instance `undefined`) version string. -/
inductive Err where
  | fromExec (errorType : String) (message : String)
  | semverInvalidVersion (version : Option String)
deriving DecidableEq, Repr

/-- `parseError(err).errorType` from the external `vscode-azureextensionui`
library: the embedded error code of an exec failure, or the error name
(`TypeError`) for the semver exception. -/
def Err.errorType : Err → String
  | .fromExec t _ => t
  | .semverInvalidVersion _ => "TypeError"

/-- One observable external call made by the client: a process execution
(`processProvider.exec`), a file-system operation (`fsProvider.readFile`,
`fsProvider.fileExists`, `fsProvider.unlinkFile`) or a user-interaction
prompt (`ext.ui.showWarningMessage`, `ext.ui.showInputBox`). -/
inductive Event where
  | procExec (command : String)
  | fsReadFile (path : String)
  | fsFileExists (path : String)
  | fsUnlinkFile (path : String)
  | uiShowWarningMessage
  | uiShowInputBox
deriving DecidableEq, Repr

/-- The file system as seen through `FileSystemProvider`: the text contents
`readFile` returns for a path, and which paths `fileExists` reports. -/
structure FS where
  contents : String → String
  existing : String → Bool

/-- The injected collaborators.  `exec` is `processProvider.exec`: given a
command string and the current file system it returns either the captured
stdout or a thrown error, together with the file system after the external
process ran (the export subcommand, for example, may create a file).
`os` / `isMac` are `osProvider.os` / `osProvider.isMac`.  `warningSelection`
is the outcome of the modal `ext.ui.showWarningMessage` (`ok true` = the user
chose Trust, `ok false` = skip for now, `error` = the UI threw, e.g. the user
cancelled the modal).  `passwordPrompts` is how many times the trust
command's output matched the `/Password:/i` pattern inside the `progress`
callback, i.e. how many masked input boxes were shown; the passwords written
to the child process's stdin are external effects not otherwise observable.
`randomHex` stands for `getRandomHexString`, whose randomness comes from the
external `crypto.randomBytes`. -/
structure Env where
  exec : String → FS → Except Err String × FS
  os : String
  isMac : Bool
  warningSelection : Except Err Bool
  passwordPrompts : Nat
  randomHex : Nat → String

/-- The state an invocation of the client reads and writes: the file system,
the static set `_KnownConfiguredProjects` (modelled as a list used as a set),
the static boolean `_CertificateTrustedOrSkipped`, and the trace of external
calls performed so far. -/
structure World where
  fs : FS
  knownConfiguredProjects : List String
  certificateTrustedOrSkipped : Bool
  trace : List Event

/-- `await this.processProvider.exec(command, ...)`: record the call, let the
external process transform the file system, and surface its result. -/
def runExec (env : Env) (w : World) (command : String) : Except Err String × World :=
  let res := env.exec command w.fs
  (res.1, { w with fs := res.2, trace := w.trace ++ [Event.procExec command] })

/-- ASCII case folding on code points, as the `i` regex flag applies to the
ASCII-only pattern `UserSecretsId`. -/
def lowerVal (n : Nat) : Nat := if 65 ≤ n ∧ n ≤ 90 then n + 32 else n

/-- Case-insensitive character comparison. -/
def eqCI (a b : Char) : Bool := lowerVal a.toNat == lowerVal b.toNat

/-- Does the pattern match at the head of the text, case-insensitively? -/
def matchesAt : List Char → List Char → Bool
  | [], _ => true
  | _ :: _, [] => false
  | a :: pat, b :: s => eqCI a b && matchesAt pat s

/-- Does the pattern occur anywhere in the text, case-insensitively? -/
def searchCI (pat : List Char) : List Char → Bool
  | [] => pat.isEmpty
  | b :: s => matchesAt pat (b :: s) || searchCI pat s

/-- `/UserSecretsId/i.test(contents)`: case-insensitive substring test (the
pattern has no metacharacters, so the regex is a literal search). -/
def hasUserSecretsId (contents : String) : Bool :=
  searchCI "UserSecretsId".data contents.data

/-- The whitespace characters `String.prototype.trim` strips from
`result.stdout` (the common ASCII ones; the version output ends in a
newline). -/
def isWS (c : Char) : Bool := c == ' ' || c == '\t' || c == '\n' || c == '\r'

/-- Drop leading whitespace. -/
def dropWS : List Char → List Char
  | [] => []
  | c :: rest => if isWS c then dropWS rest else c :: rest

/-- `result.stdout.trim()`: strip whitespace from both ends. -/
def strTrim (s : String) : String :=
  ⟨(dropWS (dropWS s.data.reverse).reverse)⟩

/-- Split a character list on the `.` separator (semver's field
separator). -/
def splitOnDot : List Char → List (List Char)
  | [] => [[]]
  | c :: rest =>
    let r := splitOnDot rest
    if c == '.' then [] :: r
    else
      match r with
      | [] => [[c]]
      | g :: gs => (c :: g) :: gs

/-- A decimal digit's value. -/
def digitVal (c : Char) : Option Nat :=
  if '0' ≤ c ∧ c ≤ '9' then some (c.toNat - 48) else none

/-- Accumulate decimal digits into a number; any non-digit fails. -/
def parseNatAux : List Char → Nat → Option Nat
  | [], acc => some acc
  | c :: rest, acc =>
    match digitVal c with
    | some d => parseNatAux rest (acc * 10 + d)
    | none => none

/-- A non-empty all-digit character list as a number. -/
def parseNatChars (l : List Char) : Option Nat :=
  match l with
  | [] => none
  | _ :: _ => parseNatAux l 0

/-- Model of the external `semver` library's version parsing, restricted to
the plain `major.minor.patch` form (prerelease/build suffixes are omitted;
the claims only quantify over versions this parser accepts). -/
def parseSemVer (s : String) : Option (Nat × Nat × Nat) :=
  match splitOnDot s.data with
  | [a, b, c] =>
    match parseNatChars a, parseNatChars b, parseNatChars c with
    | some x, some y, some z => some (x, y, z)
    | _, _, _ => none
  | _ => none

/-- Lexicographic `≥` on parsed versions, as `semver.gte` compares
major, then minor, then patch. -/
def semverGteB (v w : Nat × Nat × Nat) : Bool :=
  if v.1 ≠ w.1 then decide (w.1 < v.1)
  else if v.2.1 ≠ w.2.1 then decide (w.2.1 < v.2.1)
  else decide (w.2.2 ≤ v.2.2)

/-- `semver.gte(v, w)` for `v` a possibly-`undefined` string: the external
library throws a `TypeError` on an invalid or `undefined` version and
otherwise compares the parsed versions. -/
def semverGte (v : Option String) (w : String) : Except Err Bool :=
  match v with
  | none => Except.error (Err.semverInvalidVersion none)
  | some s =>
    match parseSemVer s, parseSemVer w with
    | some pv, some pw => Except.ok (semverGteB pv pw)
    | _, _ => Except.error (Err.semverInvalidVersion (some s))

/-- The `dotnet user-secrets init` command string built at line 89 of the
source, with the freshly generated 32-character hex id interpolated. -/
def userSecretsInitCommand (projectFile id : String) : String :=
  "dotnet user-secrets init --project \"" ++ projectFile ++ "\" --id " ++ id

/-- The fixed trust-check command of line 105. -/
def checkCommand : String := "dotnet dev-certs https --check --trust"

/-- The trust command of line 122: privilege-elevated with `sudo -S` on
everything but Windows. -/
def trustCommand (os : String) : String :=
  (if os = "Windows" then "" else "sudo -S ") ++ "dotnet dev-certs https --trust"

/-- The export command of line 157. -/
def exportCommand (hostExportPath password : String) : String :=
  "dotnet dev-certs https -ep \"" ++ hostExportPath ++ "\" -p \"" ++ password ++ "\""

/-- The `dotnet user-secrets ... set` command of line 161. -/
def setPasswordCommand (projectFile password : String) : String :=
  "dotnet user-secrets --project \"" ++ projectFile ++ "\" set Kestrel:Certificates:Development:Password \"" ++ password ++ "\""

/-- `getVersion` (lines 54–65): run `dotnet --version`, trim the stdout; any
exec failure is swallowed and reported as `undefined`. -/
def getVersion (env : Env) (w : World) : Option String × World :=
  let r := runExec env w "dotnet --version"
  match r.1 with
  | Except.ok out => (some (strTrim out), r.2)
  | Except.error _ => (none, r.2)

/-- `addUserSecretsIfNecessary` (lines 80–92): read the project file; if it
already mentions `UserSecretsId`, return.  Otherwise query the tool version
and, when `semver.gte(dotNetVer, '3.0.0')`, run `dotnet user-secrets init`
with a fresh random id.  The semver call throws when the version query failed,
and an init failure propagates. -/
def addUserSecretsIfNecessary (env : Env) (w : World) (projectFile : String) :
    Except Err Unit × World :=
  let contents := w.fs.contents projectFile
  let w1 := { w with trace := w.trace ++ [Event.fsReadFile projectFile] }
  if hasUserSecretsId contents then (Except.ok (), w1)
  else
    let vr := getVersion env w1
    match semverGte vr.1 "3.0.0" with
    | Except.error e => (Except.error e, vr.2)
    | Except.ok true =>
      let r := runExec env vr.2 (userSecretsInitCommand projectFile (env.randomHex 32))
      (r.1.map (fun _ => ()), r.2)
    | Except.ok false => (Except.ok (), vr.2)

/-- `promptAndTrustCertificateIfNecessary` (lines 94–146): skip on an OS that
is neither Windows nor Mac; skip when trust was already established or
skipped this run.  Otherwise probe with the check command; on success set the
flag.  On failure with error code `6` or `7`, show the modal prompt: if the
user chooses Trust run the trust command (relaying passwords through masked
input boxes on non-Windows) and set the flag on success; if the user skips,
set the flag anyway.  Any other error code propagates unchanged. -/
def promptAndTrustCertificateIfNecessary (env : Env) (w : World) :
    Except Err Unit × World :=
  if env.os ≠ "Windows" ∧ env.isMac = false then (Except.ok (), w)
  else if w.certificateTrustedOrSkipped then (Except.ok (), w)
  else
    let r := runExec env w checkCommand
    match r.1 with
    | Except.ok _ => (Except.ok (), { r.2 with certificateTrustedOrSkipped := true })
    | Except.error err =>
      if err.errorType = "6" ∨ err.errorType = "7" then
        let w2 := { r.2 with trace := r.2.trace ++ [Event.uiShowWarningMessage] }
        match env.warningSelection with
        | Except.error e => (Except.error e, w2)
        | Except.ok true =>
          let tr := runExec env w2 (trustCommand env.os)
          let w3 := { tr.2 with trace := tr.2.trace ++
            (if env.os = "Windows" then [] else
              List.replicate env.passwordPrompts Event.uiShowInputBox) }
          match tr.1 with
          | Except.ok _ => (Except.ok (), { w3 with certificateTrustedOrSkipped := true })
          | Except.error e => (Except.error e, w3)
        | Except.ok false => (Except.ok (), { w2 with certificateTrustedOrSkipped := true })
      else (Except.error err, r.2)

/-- `fsProvider.unlinkFile`: the path no longer exists afterwards. -/
def unlinkFS (fs : FS) (path : String) : FS :=
  { fs with existing := fun q => if q = path then false else fs.existing q }

/-- The `catch` block of `exportAndSetPasswordIfNecessary` (lines 163–168)
before the rethrow: check whether the export file exists and delete it if
so. -/
def cleanupExport (w : World) (hostExportPath : String) : World :=
  let w1 := { w with trace := w.trace ++ [Event.fsFileExists hostExportPath] }
  if w.fs.existing hostExportPath then
    { w1 with fs := unlinkFS w1.fs hostExportPath,
              trace := w1.trace ++ [Event.fsUnlinkFile hostExportPath] }
  else w1

/-- `exportAndSetPasswordIfNecessary` (lines 148–170): skip when the host
export file already exists.  Otherwise generate a random password, run the
export command, then store the password with `dotnet user-secrets set`.  If
either command throws, delete any export file present and rethrow the
original error. -/
def exportAndSetPasswordIfNecessary (env : Env) (w : World)
    (projectFile hostExportPath : String) : Except Err Unit × World :=
  let w1 := { w with trace := w.trace ++ [Event.fsFileExists hostExportPath] }
  if w.fs.existing hostExportPath then (Except.ok (), w1)
  else
    let password := env.randomHex 32
    let er := runExec env w1 (exportCommand hostExportPath password)
    match er.1 with
    | Except.error e => (Except.error e, cleanupExport er.2 hostExportPath)
    | Except.ok _ =>
      let sr := runExec env er.2 (setPasswordCommand projectFile password)
      match sr.1 with
      | Except.ok _ => (Except.ok (), sr.2)
      | Except.error e => (Except.error e, cleanupExport sr.2 hostExportPath)

/-- `trustAndExportSslCertificate` (lines 67–78): short-circuit for a project
already in `_KnownConfiguredProjects`; otherwise run the three steps in
order, propagating the first error, and add the project to the cache only
after all three succeeded. -/
def trustAndExportSslCertificate (env : Env) (w : World)
    (projectFile hostExportPath : String) : Except Err Unit × World :=
  if projectFile ∈ w.knownConfiguredProjects then (Except.ok (), w)
  else
    let s1 := addUserSecretsIfNecessary env w projectFile
    match s1.1 with
    | Except.error e => (Except.error e, s1.2)
    | Except.ok _ =>
      let s2 := promptAndTrustCertificateIfNecessary env s1.2
      match s2.1 with
      | Except.error e => (Except.error e, s2.2)
      | Except.ok _ =>
        let s3 := exportAndSetPasswordIfNecessary env s2.2 projectFile hostExportPath
        match s3.1 with
        | Except.error e => (Except.error e, s3.2)
        | Except.ok _ =>
          (Except.ok (), { s3.2 with
            knownConfiguredProjects := projectFile :: s3.2.knownConfiguredProjects })

/-- `MSBuildExecOptions` (lines 15–18): both fields optional. -/
structure MSBuildExecOptions where
  target : Option String
  properties : Option (List (String × String))

/-- `Array.prototype.join('')` over the property fragments: plain
concatenation in `Object.keys` (insertion) order. -/
def joinAll : List String → String
  | [] => ""
  | s :: rest => s ++ joinAll rest

/-- The command string `execTarget` builds (lines 37–49).  JavaScript
truthiness: `if (options.target)` is false for the empty string, so an empty
target adds no `/t:` fragment; a present `properties` object contributes one
quoted `/p:` fragment per key. -/
def msbuildCommand (projectFile : String) (options : Option MSBuildExecOptions) : String :=
  let command := "dotnet msbuild \"" ++ projectFile ++ "\""
  match options with
  | none => command
  | some opts =>
    let command :=
      match opts.target with
      | some t => if t = "" then command else command ++ " \"/t:" ++ t ++ "\""
      | none => command
    match opts.properties with
    | some props =>
      command ++ joinAll (props.map (fun kv => " \"/p:" ++ kv.1 ++ "=" ++ kv.2 ++ "\""))
    | none => command

/-- `execTarget` (lines 36–52): build the msbuild command and execute it
once. -/
def execTarget (env : Env) (w : World) (projectFile : String)
    (options : Option MSBuildExecOptions) : Except Err Unit × World :=
  let r := runExec env w (msbuildCommand projectFile options)
  (r.1.map (fun _ => ()), r.2)

/-- The target of `Option MSBuildExecOptions`, `none` when no options were
passed. -/
def optionsTarget : Option MSBuildExecOptions → Option String
  | none => none
  | some o => o.target

/-- The properties of `Option MSBuildExecOptions` as a list, empty when
absent. -/
def optionsProperties : Option MSBuildExecOptions → List (String × String)
  | none => []
  | some o => o.properties.getD []

/-- The spec's grammar for the command, written from its words:
`dotnet msbuild "<project>"`, followed by `"/t:<target>"` when a target is
given, followed by one `"/p:<key>=<value>"` fragment per property. -/
def specTargetFragment : Option String → String
  | none => ""
  | some t => " \"/t:" ++ t ++ "\""

/-- One quoted `"/p:<key>=<value>"` fragment per property, in order. -/
def specPropsFragment : List (String × String) → String
  | [] => ""
  | kv :: rest => " \"/p:" ++ kv.1 ++ "=" ++ kv.2 ++ "\"" ++ specPropsFragment rest

/-- The spec's whole command string. -/
def specMSBuildCommand (projectFile : String) (options : Option MSBuildExecOptions) : String :=
  "dotnet msbuild \"" ++ projectFile ++ "\"" ++
    specTargetFragment (optionsTarget options) ++
    specPropsFragment (optionsProperties options)

/-! ### Helper lemmas: which fields each step can change -/

theorem addUserSecrets_known (env : Env) (w : World) (p : String) :
    (addUserSecretsIfNecessary env w p).2.knownConfiguredProjects =
      w.knownConfiguredProjects := by
  unfold addUserSecretsIfNecessary getVersion runExec
  dsimp only
  repeat' split
  all_goals rfl

theorem promptAndTrust_known (env : Env) (w : World) :
    (promptAndTrustCertificateIfNecessary env w).2.knownConfiguredProjects =
      w.knownConfiguredProjects := by
  unfold promptAndTrustCertificateIfNecessary runExec
  dsimp only
  repeat' split
  all_goals rfl

theorem exportStep_known (env : Env) (w : World) (p hp : String) :
    (exportAndSetPasswordIfNecessary env w p hp).2.knownConfiguredProjects =
      w.knownConfiguredProjects := by
  unfold exportAndSetPasswordIfNecessary cleanupExport unlinkFS runExec
  dsimp only
  repeat' split
  all_goals rfl

/-! ### Concrete environments and worlds used by the witnesses -/

/-- A file system with no files and empty contents. -/
def fsBlank : FS := { contents := fun _ => "", existing := fun _ => false }

/-- A file system whose every file contains the `UserSecretsId` marker. -/
def fsMarker : FS := { contents := fun _ => "UserSecretsId", existing := fun _ => false }

/-- An environment where every command succeeds with empty output. -/
def envNull : Env :=
  { exec := fun _ fs => (Except.ok "", fs), os := "Linux", isMac := false,
    warningSelection := Except.ok false, passwordPrompts := 0,
    randomHex := fun _ => "ab12" }

/-- An environment where every command fails with error code 1. -/
def envFail : Env :=
  { exec := fun _ fs => (Except.error (Err.fromExec "1" "exit 1"), fs), os := "Linux",
    isMac := false, warningSelection := Except.ok false, passwordPrompts := 0,
    randomHex := fun _ => "ab12" }

/-- The initial world over the blank file system. -/
def worldBlank : World :=
  { fs := fsBlank, knownConfiguredProjects := [], certificateTrustedOrSkipped := false,
    trace := [] }

/-- A world over the marker file system with `proj` already cached. -/
def worldCached : World :=
  { fs := fsMarker, knownConfiguredProjects := ["proj"],
    certificateTrustedOrSkipped := false, trace := [] }

/-- A world over the marker file system with an empty cache. -/
def worldMarker : World :=
  { fs := fsMarker, knownConfiguredProjects := [], certificateTrustedOrSkipped := false,
    trace := [] }

/-! ### C6, C7, C10 -/

/-- C6: for every project file whose content contains the secrets-identifier
marker (case-insensitive `UserSecretsId`), `addUserSecretsIfNecessary`
performs no version query and no process call — whatever the environment
(and hence whatever version a query would report), the step returns
successfully having performed only the file read. -/
theorem addUserSecrets_marker_skips (env : Env) (w : World) (p : String)
    (hm : hasUserSecretsId (w.fs.contents p) = true) :
    addUserSecretsIfNecessary env w p =
      (Except.ok (), { w with trace := w.trace ++ [Event.fsReadFile p] }) := by
  unfold addUserSecretsIfNecessary
  simp [hm]

/-- Witness for C6 at a concrete project file containing the marker. -/
theorem addUserSecrets_marker_skips_witness :
    addUserSecretsIfNecessary envNull worldMarker "proj" =
      (Except.ok (), { worldMarker with trace := [Event.fsReadFile "proj"] }) :=
  addUserSecrets_marker_skips envNull worldMarker "proj" (by decide)

/-- C7: if the file at the host export path already exists when the export
step runs, the export subcommand is never invoked and no process call,
password generation or secrets write occurs in that step: the only external
call is the existence check. -/
theorem exportStep_file_exists_skips (env : Env) (w : World) (p hp : String)
    (hex : w.fs.existing hp = true) :
    exportAndSetPasswordIfNecessary env w p hp =
      (Except.ok (), { w with trace := w.trace ++ [Event.fsFileExists hp] }) := by
  unfold exportAndSetPasswordIfNecessary
  simp [hex]

/-- A file system where only the export target exists. -/
def fsWithCert : FS := { contents := fun _ => "", existing := fun q => q == "cert.pfx" }

/-- A world over `fsWithCert`. -/
def worldWithCert : World :=
  { fs := fsWithCert, knownConfiguredProjects := [], certificateTrustedOrSkipped := false,
    trace := [] }

/-- Witness for C7 at a concrete world where the export file exists. -/
theorem exportStep_file_exists_skips_witness :
    exportAndSetPasswordIfNecessary envNull worldWithCert "proj" "cert.pfx" =
      (Except.ok (), { worldWithCert with trace := [Event.fsFileExists "cert.pfx"] }) :=
  exportStep_file_exists_skips envNull worldWithCert "proj" "cert.pfx" (by decide)

/-- After the catch-block cleanup the export file never exists: either it
existed and was unlinked, or it did not exist. -/
theorem cleanupExport_existing (w : World) (hp : String) :
    (cleanupExport w hp).fs.existing hp = false := by
  unfold cleanupExport unlinkFS
  dsimp only
  split
  · simp
  · next h => simpa using h

/-- C10: whenever `exportAndSetPasswordIfNecessary` raises an error — the
export subcommand failed, or it succeeded and the subsequent user-secrets
password-set command failed — the file at the host export path does not
exist when the error propagates: any certificate file written during the
attempt has been deleted (and the step never errors when the file existed
beforehand, so the post-state agrees with the pre-state in that case too). -/
theorem exportStep_atomic (env : Env) (w : World) (p hp : String) (e : Err) (w' : World)
    (herr : exportAndSetPasswordIfNecessary env w p hp = (Except.error e, w')) :
    w'.fs.existing hp = false := by
  unfold exportAndSetPasswordIfNecessary at herr
  dsimp only at herr
  split at herr
  · exact absurd herr (by simp)
  · split at herr
    · injection herr with h1 h2
      rw [← h2]
      exact cleanupExport_existing ..
    · split at herr
      · exact absurd herr (by simp)
      · injection herr with h1 h2
        rw [← h2]
        exact cleanupExport_existing ..

/-- Witness for C10: with every command failing, the step errors and the
export path does not exist afterwards. -/
theorem exportStep_atomic_witness :
    (exportAndSetPasswordIfNecessary envFail worldBlank "proj" "cert.pfx").2.fs.existing
      "cert.pfx" = false :=
  exportStep_atomic envFail worldBlank "proj" "cert.pfx" (Err.fromExec "1" "exit 1")
    (exportAndSetPasswordIfNecessary envFail worldBlank "proj" "cert.pfx").2 rfl

/-! ### C1 -/

/-- C1: for every project path already in the idempotency cache — in
particular after any fully successful run for that path, which is what the
third conjunct records — `trustAndExportSslCertificate` returns immediately
with the world unchanged: zero process, file-system or user-interaction
calls (the trace is untouched) and the cache and trust flag as before.  The
second conjunct shows the path is added to the cache only after all three
steps complete without error: any erroring run leaves the cache exactly as
it was. -/
theorem trustAndExport_idempotent_cache (env : Env) (w : World) (p hp : String) :
    (p ∈ w.knownConfiguredProjects →
      trustAndExportSslCertificate env w p hp = (Except.ok (), w)) ∧
    (∀ e w', trustAndExportSslCertificate env w p hp = (Except.error e, w') →
      w'.knownConfiguredProjects = w.knownConfiguredProjects) ∧
    (∀ w', trustAndExportSslCertificate env w p hp = (Except.ok (), w') →
      p ∈ w'.knownConfiguredProjects) := by
  refine ⟨fun hmem => ?_, fun e w' herr => ?_, fun w' hok => ?_⟩
  · unfold trustAndExportSslCertificate
    simp [hmem]
  · unfold trustAndExportSslCertificate at herr
    dsimp only at herr
    split at herr
    · exact absurd herr (by simp)
    · split at herr
      · injection herr with h1 h2
        rw [← h2]
        exact addUserSecrets_known ..
      · split at herr
        · injection herr with h1 h2
          rw [← h2, promptAndTrust_known, addUserSecrets_known]
        · split at herr
          · injection herr with h1 h2
            rw [← h2, exportStep_known, promptAndTrust_known, addUserSecrets_known]
          · exact absurd herr (by simp)
  · unfold trustAndExportSslCertificate at hok
    dsimp only at hok
    split at hok
    · rename_i hmem
      injection hok with h1 h2
      rw [← h2]
      exact hmem
    · split at hok
      · exact absurd hok (by simp)
      · split at hok
        · exact absurd hok (by simp)
        · split at hok
          · exact absurd hok (by simp)
          · injection hok with h1 h2
            rw [← h2]
            exact List.mem_cons_self ..

/-- Witness for C1: a cached project short-circuits with the world
unchanged. -/
theorem trustAndExport_idempotent_cache_witness :
    trustAndExportSslCertificate envNull worldCached "proj" "cert.pfx" =
      (Except.ok (), worldCached) :=
  (trustAndExport_idempotent_cache envNull worldCached "proj" "cert.pfx").1 (by decide)

/-! ### C2 -/

/-- C2: when a not-yet-cached project reaches the trust-check step (secrets
step succeeded, OS has a trust store, trust not yet established or skipped)
and the check command `dotnet dev-certs https --check --trust` fails with an
error whose code is neither `6` nor `7`, `trustAndExportSslCertificate`
raises exactly that error: the run's only external call after the secrets
step is the check command itself — the export subcommand is never executed —
and the idempotency cache is left unchanged, so the project is not added. -/
theorem trustCheck_fatal_error_propagates (env : Env) (w w1 : World) (p hp : String)
    (err : Err) (fs2 : FS)
    (hmem : p ∉ w.knownConfiguredProjects)
    (hsec : addUserSecretsIfNecessary env w p = (Except.ok (), w1))
    (hos : env.os = "Windows" ∨ env.isMac = true)
    (hct : w1.certificateTrustedOrSkipped = false)
    (hchk : env.exec checkCommand w1.fs = (Except.error err, fs2))
    (h6 : err.errorType ≠ "6") (h7 : err.errorType ≠ "7") :
    trustAndExportSslCertificate env w p hp =
      (Except.error err,
        { w1 with fs := fs2, trace := w1.trace ++ [Event.procExec checkCommand] }) ∧
    (trustAndExportSslCertificate env w p hp).2.knownConfiguredProjects =
      w.knownConfiguredProjects := by
  have hcond : ¬(env.os ≠ "Windows" ∧ env.isMac = false) := by
    rcases hos with h | h
    · exact fun hc => hc.1 h
    · intro hc
      rw [h] at hc
      cases hc.2
  have hpt : promptAndTrustCertificateIfNecessary env w1 =
      (Except.error err,
        { w1 with fs := fs2, trace := w1.trace ++ [Event.procExec checkCommand] }) := by
    unfold promptAndTrustCertificateIfNecessary runExec
    dsimp only
    rw [if_neg hcond, if_neg (by simp [hct]), hchk]
    dsimp only
    rw [if_neg (by rintro (h | h); exacts [h6 h, h7 h])]
  have hmain : trustAndExportSslCertificate env w p hp =
      (Except.error err,
        { w1 with fs := fs2, trace := w1.trace ++ [Event.procExec checkCommand] }) := by
    unfold trustAndExportSslCertificate
    dsimp only
    rw [if_neg hmem, hsec]
    dsimp only
    rw [hpt]
  refine ⟨hmain, ?_⟩
  rw [hmain]
  have hknown : (addUserSecretsIfNecessary env w p).2.knownConfiguredProjects =
      w1.knownConfiguredProjects := by rw [hsec]
  exact hknown.symm.trans (addUserSecrets_known ..)

/-- An environment on Windows where the trust-check command fails with the
non-recoverable code 9 and every other command succeeds. -/
def envBadCheck : Env :=
  { exec := fun cmd fs =>
      if cmd = checkCommand then (Except.error (Err.fromExec "9" "bad"), fs)
      else (Except.ok "", fs),
    os := "Windows", isMac := false, warningSelection := Except.ok false,
    passwordPrompts := 0, randomHex := fun _ => "ab12" }

/-- Witness for C2 at a concrete run with error code 9. -/
theorem trustCheck_fatal_error_propagates_witness :
    trustAndExportSslCertificate envBadCheck worldMarker "proj" "cert.pfx" =
      (Except.error (Err.fromExec "9" "bad"),
        { worldMarker with
          trace := [Event.fsReadFile "proj", Event.procExec checkCommand] }) ∧
    (trustAndExportSslCertificate envBadCheck worldMarker "proj" "cert.pfx"
      ).2.knownConfiguredProjects = worldMarker.knownConfiguredProjects :=
  trustCheck_fatal_error_propagates envBadCheck worldMarker
    { worldMarker with trace := [Event.fsReadFile "proj"] } "proj" "cert.pfx"
    (Err.fromExec "9" "bad") fsMarker (by decide) rfl (Or.inl rfl) rfl rfl
    (by decide) (by decide)

/-! ### C3 and C9 -/

/-- C3: when the project file lacks the secrets-identifier marker and the
version query succeeds with a parseable version, secrets initialization is
skipped exactly when the version compares below `3.0.0` and performed
exactly when it compares at or above it (so a reported version of exactly
`3.0.0` initializes — the second conjunct applied to `(3, 0, 0)`, for which
`semverGteB` holds by reflexivity of the order).  In the skip case the
step's external calls are the file read and the version query only; in the
init case `dotnet user-secrets init` is additionally executed with a fresh
random id, its outcome surfacing as the step's result. -/
theorem addUserSecrets_version_threshold (env : Env) (w : World) (p : String)
    (hmark : hasUserSecretsId (w.fs.contents p) = false)
    (out : String) (fs1 : FS)
    (hvq : env.exec "dotnet --version" w.fs = (Except.ok out, fs1))
    (a b c : Nat) (hparse : parseSemVer (strTrim out) = some (a, b, c)) :
    (semverGteB (a, b, c) (3, 0, 0) = false →
      addUserSecretsIfNecessary env w p =
        (Except.ok (),
         { w with fs := fs1,
                  trace := w.trace ++
                    [Event.fsReadFile p, Event.procExec "dotnet --version"] })) ∧
    (semverGteB (a, b, c) (3, 0, 0) = true →
      addUserSecretsIfNecessary env w p =
        ((env.exec (userSecretsInitCommand p (env.randomHex 32)) fs1).1.map (fun _ => ()),
         { w with fs := (env.exec (userSecretsInitCommand p (env.randomHex 32)) fs1).2,
                  trace := w.trace ++
                    [Event.fsReadFile p, Event.procExec "dotnet --version",
                     Event.procExec (userSecretsInitCommand p (env.randomHex 32))] })) := by
  have hstep : addUserSecretsIfNecessary env w p =
      (if semverGteB (a, b, c) (3, 0, 0) then
        ((env.exec (userSecretsInitCommand p (env.randomHex 32)) fs1).1.map (fun _ => ()),
         { w with fs := (env.exec (userSecretsInitCommand p (env.randomHex 32)) fs1).2,
                  trace := w.trace ++
                    [Event.fsReadFile p, Event.procExec "dotnet --version",
                     Event.procExec (userSecretsInitCommand p (env.randomHex 32))] })
      else
        (Except.ok (),
         { w with fs := fs1,
                  trace := w.trace ++
                    [Event.fsReadFile p, Event.procExec "dotnet --version"] })) := by
    unfold addUserSecretsIfNecessary getVersion runExec semverGte
    dsimp only
    rw [if_neg (by simp [hmark]), hvq]
    dsimp only
    rw [hparse, (by decide : parseSemVer "3.0.0" = some (3, 0, 0))]
    dsimp only
    cases hgte : semverGteB (a, b, c) (3, 0, 0) <;> simp [hgte]
  constructor
  · intro hlt
    rw [hstep, if_neg (by simp only [hlt]; decide)]
  · intro hge
    rw [hstep, if_pos hge]

/-- An environment reporting tool version exactly 3.0.0, every command
succeeding. -/
def envV300 : Env :=
  { exec := fun cmd fs =>
      if cmd = "dotnet --version" then (Except.ok "3.0.0\n", fs) else (Except.ok "", fs),
    os := "Linux", isMac := false, warningSelection := Except.ok false,
    passwordPrompts := 0, randomHex := fun _ => "ab12" }

/-- Witness for C3 at the boundary: a reported version of exactly `3.0.0`
performs initialization (the init command is executed and the step returns
its successful outcome). -/
theorem addUserSecrets_version_threshold_witness :
    addUserSecretsIfNecessary envV300 worldBlank "proj" =
      (Except.ok (),
       { worldBlank with
         trace := [Event.fsReadFile "proj", Event.procExec "dotnet --version",
           Event.procExec (userSecretsInitCommand "proj" "ab12")] }) :=
  (addUserSecrets_version_threshold envV300 worldBlank "proj" (by decide) "3.0.0\n"
    fsBlank rfl 3 0 0 (by decide)).2 (by decide)

/-- C9: when the project file lacks the marker and the version query fails
(`getVersion` reports no version), `addUserSecretsIfNecessary` does not skip
initialization: the `semver.gte` comparison applied to the undefined version
throws, the step returns that error after exactly the file read and the
failed version query, and consequently `trustAndExportSslCertificate` fails
for a not-yet-cached project. -/
theorem versionQueryFailure_throws (env : Env) (w : World) (p hp : String)
    (hmark : hasUserSecretsId (w.fs.contents p) = false)
    (e : Err) (fs1 : FS)
    (hvq : env.exec "dotnet --version" w.fs = (Except.error e, fs1)) :
    addUserSecretsIfNecessary env w p =
      (Except.error (Err.semverInvalidVersion none),
       { w with fs := fs1,
                trace := w.trace ++
                  [Event.fsReadFile p, Event.procExec "dotnet --version"] }) ∧
    (p ∉ w.knownConfiguredProjects →
      (trustAndExportSslCertificate env w p hp).1 =
        Except.error (Err.semverInvalidVersion none)) := by
  have hstep : addUserSecretsIfNecessary env w p =
      (Except.error (Err.semverInvalidVersion none),
       { w with fs := fs1,
                trace := w.trace ++
                  [Event.fsReadFile p, Event.procExec "dotnet --version"] }) := by
    unfold addUserSecretsIfNecessary getVersion runExec semverGte
    dsimp only
    rw [if_neg (by simp [hmark]), hvq]
    simp [List.append_assoc]
  refine ⟨hstep, fun hmem => ?_⟩
  unfold trustAndExportSslCertificate
  dsimp only
  rw [if_neg hmem, hstep]

/-- Witness for C9: with the version command failing, the secrets step and
the whole workflow fail with the semver error. -/
theorem versionQueryFailure_throws_witness :
    (trustAndExportSslCertificate envFail worldBlank "proj" "cert.pfx").1 =
      Except.error (Err.semverInvalidVersion none) :=
  (versionQueryFailure_throws envFail worldBlank "proj" "cert.pfx" (by decide)
    (Err.fromExec "1" "exit 1") fsBlank rfl).2 (by decide)

/-! ### C5 -/

/-- On an OS that is neither Windows nor Mac the trust step returns at once
with the world untouched, for every world. -/
theorem promptAndTrust_noTrustStore (env : Env) (hos : env.os ≠ "Windows")
    (hmac : env.isMac = false) (w : World) :
    promptAndTrustCertificateIfNecessary env w = (Except.ok (), w) := by
  unfold promptAndTrustCertificateIfNecessary
  rw [if_pos ⟨hos, hmac⟩]

/-- C5: on every operating system that is neither Windows nor Mac, the
trust-check/prompt step executes no process call, shows no prompt and
changes no state (it is the identity on the world, first conjunct), while
for a not-yet-cached project the workflow still proceeds to the export step
for that invocation: the whole run is the secrets step followed directly by
the export step, with the cache updated on success (second conjunct). -/
theorem noTrustStore_skips_trust_but_exports (env : Env) (w : World) (p hp : String)
    (hos : env.os ≠ "Windows") (hmac : env.isMac = false) :
    promptAndTrustCertificateIfNecessary env w = (Except.ok (), w) ∧
    (p ∉ w.knownConfiguredProjects →
      trustAndExportSslCertificate env w p hp =
        (match addUserSecretsIfNecessary env w p with
         | (Except.error e, w1) => (Except.error e, w1)
         | (Except.ok _, w1) =>
           match exportAndSetPasswordIfNecessary env w1 p hp with
           | (Except.error e, w2) => (Except.error e, w2)
           | (Except.ok _, w2) =>
             (Except.ok (),
              { w2 with knownConfiguredProjects := p :: w2.knownConfiguredProjects }))) := by
  refine ⟨promptAndTrust_noTrustStore env hos hmac w, fun hmem => ?_⟩
  unfold trustAndExportSslCertificate
  dsimp only
  rw [if_neg hmem]
  rcases h1 : addUserSecretsIfNecessary env w p with ⟨r1, w1⟩
  dsimp only
  cases r1 with
  | error e => rfl
  | ok u =>
    rw [promptAndTrust_noTrustStore env hos hmac w1]
    dsimp only
    rcases h2 : exportAndSetPasswordIfNecessary env w1 p hp with ⟨r2, w2⟩
    cases r2 <;> rfl

/-- Witness for C5: on the Linux environment the trust step is the identity
and the cached project set after a full run gains the project. -/
theorem noTrustStore_skips_trust_but_exports_witness :
    promptAndTrustCertificateIfNecessary envNull worldBlank =
      (Except.ok (), worldBlank) :=
  (noTrustStore_skips_trust_but_exports envNull worldBlank "proj" "cert.pfx"
    (by decide) rfl).1

/-! ### C4 -/

/-- C4: if the export subcommand fails for a project whose export file did
not already exist, the step performs the catch-block cleanup — it re-checks
the path and deletes any export file created during the attempt — and then
re-raises the original error unchanged; in particular the file at the host
export path does not exist when the error surfaces. -/
theorem exportFailure_cleanup (env : Env) (w : World) (p hp : String)
    (hnf : w.fs.existing hp = false)
    (e : Err) (fs1 : FS)
    (hex : env.exec (exportCommand hp (env.randomHex 32)) w.fs = (Except.error e, fs1)) :
    exportAndSetPasswordIfNecessary env w p hp =
      (Except.error e,
       cleanupExport
         { w with fs := fs1,
                  trace := w.trace ++
                    [Event.fsFileExists hp,
                     Event.procExec (exportCommand hp (env.randomHex 32))] } hp) ∧
    (exportAndSetPasswordIfNecessary env w p hp).2.fs.existing hp = false := by
  have hmain : exportAndSetPasswordIfNecessary env w p hp =
      (Except.error e,
       cleanupExport
         { w with fs := fs1,
                  trace := w.trace ++
                    [Event.fsFileExists hp,
                     Event.procExec (exportCommand hp (env.randomHex 32))] } hp) := by
    unfold exportAndSetPasswordIfNecessary runExec
    dsimp only
    rw [if_neg (by simp [hnf]), hex]
    dsimp only
    rw [List.append_assoc]
    rfl
  refine ⟨hmain, ?_⟩
  rw [hmain]
  exact cleanupExport_existing ..

/-- Witness for C4: with the export command failing on a blank file system,
the step errors and the export path does not exist. -/
theorem exportFailure_cleanup_witness :
    exportAndSetPasswordIfNecessary envFail worldBlank "proj" "cert.pfx" =
      (Except.error (Err.fromExec "1" "exit 1"),
       cleanupExport
         { worldBlank with
           fs := fsBlank,
           trace := [Event.fsFileExists "cert.pfx",
             Event.procExec (exportCommand "cert.pfx" "ab12")] } "cert.pfx") ∧
    (exportAndSetPasswordIfNecessary envFail worldBlank "proj" "cert.pfx"
      ).2.fs.existing "cert.pfx" = false :=
  exportFailure_cleanup envFail worldBlank "proj" "cert.pfx" rfl
    (Err.fromExec "1" "exit 1") fsBlank rfl

/-! ### C8 -/

/-- Joining the mapped property fragments is the spec's per-property
concatenation. -/
theorem joinAll_map_eq_specProps (props : List (String × String)) :
    joinAll (props.map (fun kv => " \"/p:" ++ kv.1 ++ "=" ++ kv.2 ++ "\"")) =
      specPropsFragment props := by
  induction props with
  | nil => rfl
  | cons kv rest ih =>
    simp only [List.map_cons, joinAll, specPropsFragment]
    rw [ih]

/-- The command `execTarget` builds coincides with the spec's grammar, for
every options value whose target is not the empty string (JavaScript
truthiness makes an empty-string target behave as absent). -/
theorem msbuildCommand_eq_spec (p : String) (options : Option MSBuildExecOptions)
    (ht : optionsTarget options ≠ some "") :
    msbuildCommand p options = specMSBuildCommand p options := by
  cases options with
  | none =>
    simp only [msbuildCommand, specMSBuildCommand, optionsTarget, optionsProperties,
      specTargetFragment, specPropsFragment, String.append_empty]
  | some opts =>
    unfold msbuildCommand specMSBuildCommand optionsTarget optionsProperties
    dsimp only
    cases htg : opts.target with
    | none =>
      dsimp only
      cases hpr : opts.properties with
      | none =>
        simp only [specTargetFragment, specPropsFragment, Option.getD_none,
          String.append_empty]
      | some props =>
        simp only [specTargetFragment, Option.getD_some, String.append_empty,
          joinAll_map_eq_specProps]
    | some t =>
      dsimp only
      have hne : ¬(t = "") := fun hteq => ht (by simp [optionsTarget, htg, hteq])
      rw [if_neg hne]
      cases hpr : opts.properties with
      | none =>
        simp only [specTargetFragment, specPropsFragment, Option.getD_none,
          String.append_empty, String.append_assoc]
      | some props =>
        dsimp only
        rw [joinAll_map_eq_specProps]
        simp only [specTargetFragment, Option.getD_some, String.append_assoc]

/-- C8: for every project file path and options value (with a target, when
given, that is non-empty), `execTarget` executes exactly one command: the
string `dotnet msbuild "<project>"`, followed by a quoted `/t:<target>`
fragment when a target is given, followed by one quoted `/p:<key>=<value>`
fragment per property in the properties map, in order. -/
theorem execTarget_command_spec (env : Env) (w : World) (p : String)
    (options : Option MSBuildExecOptions)
    (ht : optionsTarget options ≠ some "") :
    execTarget env w p options =
      ((env.exec (specMSBuildCommand p options) w.fs).1.map (fun _ => ()),
       { w with fs := (env.exec (specMSBuildCommand p options) w.fs).2,
                trace := w.trace ++ [Event.procExec (specMSBuildCommand p options)] }) := by
  unfold execTarget runExec
  rw [msbuildCommand_eq_spec p options ht]

/-- The options used by the C8 witness: a target and two properties. -/
def msOptsEx : MSBuildExecOptions :=
  { target := some "Build",
    properties := some [("Configuration", "Debug"), ("Platform", "AnyCPU")] }

/-- Witness for C8: the concrete command executed for `msOptsEx` is the
spec's string, fully evaluated. -/
theorem execTarget_command_spec_witness :
    execTarget envNull worldBlank "app.csproj" (some msOptsEx) =
      (Except.ok (),
       { worldBlank with
         trace := [Event.procExec
           "dotnet msbuild \"app.csproj\" \"/t:Build\" \"/p:Configuration=Debug\" \"/p:Platform=AnyCPU\""] }) :=
  execTarget_command_spec envNull worldBlank "app.csproj" (some msOptsEx) (by decide)

/-- Counterexample to C8 as stated: for the options value whose target is
the empty string — a given target — the executed command contains no
`"/t:"` fragment, while the spec's grammar prescribes one, so the executed
command is not the spec's string at this input. -/
theorem execTarget_empty_target_counterexample :
    (execTarget envNull worldBlank "app.csproj"
      (some { target := some "", properties := none })).2.trace =
        [Event.procExec "dotnet msbuild \"app.csproj\""] ∧
    specMSBuildCommand "app.csproj" (some { target := some "", properties := none }) =
      "dotnet msbuild \"app.csproj\" \"/t:\"" ∧
    "dotnet msbuild \"app.csproj\"" ≠ "dotnet msbuild \"app.csproj\" \"/t:\"" :=
  ⟨by decide, by decide, by decide⟩
